import Mathlib

/-!
# Magicicada content-transfer engine: formal model

A shallow embedding of the content-transfer core of the magicicada
file-sync server (upload/download state machines, hint validation,
magic-hash dedup, upload resumption, the ContentManager user cache and
the controller resource-ordering contract).

The server implementation module is not part of the source tree available
here (only its test suite is), so every operational definition below is
modelled from the specification document, with concrete behaviour pinned
by the repository's tests where those speak (error message texts, the
commit/delete failure interplay, the begin-content offsets).

Hash values are modelled as opaque natural numbers; byte streams as
`List Nat`.  The cryptographic functions (SHA-1 content hash, salted
magic hash, CRC32, DEFLATE decompression) are abstracted into a
`HashModel` record of arbitrary computable functions, since the claims
under study only ever compare their outputs for equality.
-/

namespace Magicicada

/-- Node kind: the transfer engine only distinguishes files from directories. -/
inductive NodeKind where
  | file
  | directory
deriving DecidableEq, Repr

/-- Modelled from the spec: a metadata `Node` as the transfer engine sees it
(§3 DATA MODEL).  `content_hash` is the sentinel `0` (EMPTY) when the node has
no content; `storage_key` is absent in that case.  `owner_id` records which
user owns the node (used by the dedup ownership check of §4.4). -/
structure Node where
  id : Nat
  owner_id : Nat
  volume_id : Nat
  content_hash : Nat
  crc32 : Nat
  size : Nat
  deflated_size : Nat
  storage_key : Option Nat
  generation : Nat
  kind : NodeKind
deriving DecidableEq, Repr

/-- Modelled from the spec: a `ContentBlob` row of the content-addressed blob
metadata (§3).  `magic_hash` is optional: only uploads that supplied (and
proved) the magic hash store it. -/
structure ContentBlob where
  hash : Nat
  magic_hash : Option Nat
  crc32 : Nat
  size : Nat
  deflated_size : Nat
  storage_key : Nat
deriving DecidableEq, Repr

/-- Modelled from the spec: a durable `UploadJobRecord` row (§3, §4.3).  The
registry "persists committed chunk boundaries so resume is byte-exact", so the
model keeps the bytes committed so far in `uploaded`; the spec's
`uploaded_bytes` column is its length. -/
structure UploadJobRecord where
  uploadjob_id : Nat
  multipart_key : Nat
  volume_id : Nat
  node_id : Nat
  hash_hint : Nat
  crc32_hint : Nat
  inflated_size_hint : Nat
  previous_hash : Nat
  uploaded : List Nat
  chunk_count : Nat
deriving DecidableEq, Repr

/-- The `uploaded_bytes` column of the record: byte count committed so far. -/
def UploadJobRecord.uploaded_bytes (r : UploadJobRecord) : Nat :=
  r.uploaded.length

/-- Abstraction of the cryptographic pipeline primitives (§4.1): DEFLATE
decompression (`inflate`, failing on malformed input), the SHA-1 content
hash, the salted magic hash and CRC32, all over inflated plaintext. -/
structure HashModel where
  inflate : List Nat → Option (List Nat)
  contentHash : List Nat → Nat
  magicHash : List Nat → Nat
  crcOf : List Nat → Nat

/-- The values a finished `HashPipeline` reports (§4.1 `Snapshot`). -/
structure Snapshot where
  content_hash : Nat
  magic_hash : Nat
  crc32 : Nat
  inflated_size : Nat
  deflated_size : Nat
deriving DecidableEq, Repr

/-- Modelled from the spec: running the hash pipeline to completion over the
full deflated stream (§4.1 `AddData*; Finish; Snapshot`).  Returns `none` on a
decompression error ("bad deflate"). -/
def pipelineFinish (hm : HashModel) (deflated : List Nat) : Option Snapshot :=
  (hm.inflate deflated).map fun plain =>
    { content_hash := hm.contentHash plain
      magic_hash := hm.magicHash plain
      crc32 := hm.crcOf plain
      inflated_size := plain.length
      deflated_size := deflated.length }

/-- The server-side state the transfer engine reads and mutates: metadata
nodes, content-blob rows, the blob store proper (storage key ↦ deflated
bytes) and the upload-job registry table. -/
structure ServerState where
  nodes : List Node
  blobs : List ContentBlob
  blobStore : List (Nat × List Nat)
  uploadJobs : List UploadJobRecord
deriving DecidableEq, Repr

/-- Node lookup by id. -/
def findNode (st : ServerState) (nid : Nat) : Option Node :=
  st.nodes.find? fun n => n.id == nid

/-- Content-blob lookup by canonical content hash (the blob primary key). -/
def findBlob (st : ServerState) (h : Nat) : Option ContentBlob :=
  st.blobs.find? fun b => b.hash == h

/-- Whether user `uid` already owns at least one node whose content is `h`
(the ownership half of the dedup condition, §4.4 item 1 / §3 blob invariant). -/
def userOwnsHash (st : ServerState) (uid h : Nat) : Bool :=
  st.nodes.any fun n => n.owner_id == uid && n.content_hash == h

/-- Blob-store read: the bytes stored under a storage key. -/
def storeLookup (store : List (Nat × List Nat)) (key : Nat) : Option (List Nat) :=
  (store.find? fun p => p.1 == key).map fun p => p.2

/-- Deleting an upload-job record releases its row (§4.3 `Delete`). -/
def deleteRecord (st : ServerState) (r : UploadJobRecord) : ServerState :=
  { st with uploadJobs := st.uploadJobs.filter fun x => x.uploadjob_id != r.uploadjob_id }

/-- Replace the node with `n.id`'s id by `n` in the metadata table. -/
def updateNode (st : ServerState) (n : Node) : ServerState :=
  { st with nodes := st.nodes.map fun x => if x.id == n.id then n else x }

/-- Modelled from the spec: the per-PUT `UploadJob` state (§4.4 inputs at
construction plus the fields `Connect` decides: the dedup flag, the writer's
storage key, the published begin-content offset).  `received` accumulates the
deflated bytes fed to the job so far (for a resumed job it starts at the
record's committed bytes); `record` is `none` for non-resumable (bogus
record) jobs. -/
structure UploadJob where
  user_id : Nat
  node_id : Nat
  prev_hash : Nat
  hash_hint : Nat
  crc32_hint : Nat
  inflated_size_hint : Nat
  deflated_size_hint : Nat
  magic_hash_hint : Option Nat
  record : Option UploadJobRecord
  dedup : Bool
  storage_key : Option Nat
  received : List Nat
  offset : Nat
deriving DecidableEq, Repr

/-- A fresh (non-resumed) upload job before `Connect`. -/
def freshJob (uid nid prev h c isz dsz : Nat) (magic : Option Nat) : UploadJob :=
  { user_id := uid, node_id := nid, prev_hash := prev, hash_hint := h
    crc32_hint := c, inflated_size_hint := isz, deflated_size_hint := dsz
    magic_hash_hint := magic, record := none, dedup := false
    storage_key := none, received := [], offset := 0 }

/-- An upload job resumed from a registry record: hints are the record's own
(the registry `Get` is an exact-match lookup), and the bytes already committed
are carried over so resume is byte-exact. -/
def resumedJob (uid prev dsz : Nat) (magic : Option Nat) (r : UploadJobRecord) : UploadJob :=
  { user_id := uid, node_id := r.node_id, prev_hash := prev
    hash_hint := r.hash_hint, crc32_hint := r.crc32_hint
    inflated_size_hint := r.inflated_size_hint, deflated_size_hint := dsz
    magic_hash_hint := magic, record := some r, dedup := false
    storage_key := none, received := r.uploaded, offset := 0 }

/-- Modelled from the spec: the dedup condition of §4.4 `Connect` item 1 — a
`ContentBlob` with the hinted hash exists AND (the same user already owns it
via some node, OR the supplied `magic_hash_hint` matches the stored
`magic_hash`). -/
def dedupOk (st : ServerState) (job : UploadJob) : Bool :=
  match findBlob st job.hash_hint with
  | none => false
  | some b =>
    userOwnsHash st job.user_id job.hash_hint ||
      (match job.magic_hash_hint, b.magic_hash with
       | some m, some bm => m == bm
       | _, _ => false)

/-- Modelled from the spec: `UploadJob.Connect` (§4.4).  On the dedup path no
writer is opened and `begin_content.offset = deflated_size`; otherwise a
writer is opened at a fresh storage key and
`begin_content.offset = record.uploaded_bytes` (0 for a fresh job). -/
def connect (st : ServerState) (job : UploadJob) (freshKey : Nat) : UploadJob :=
  if dedupOk st job then
    { job with dedup := true, storage_key := none
               offset := job.deflated_size_hint }
  else
    { job with dedup := false, storage_key := some freshKey
               offset := (job.record.map (fun r => r.uploaded_bytes)).getD 0 }

/-- Modelled from the spec: `UploadJob.AddData` (§4.4).  On the dedup path the
client skips transmission, so no bytes reach the job; otherwise the bytes are
appended, in order, to the stream fed to the hash pipeline and blob writer. -/
def addData (job : UploadJob) (bytes : List Nat) : UploadJob :=
  if job.dedup then job else { job with received := job.received ++ bytes }

/-- Feeding a chunked stream: `AddData` once per chunk, in order. -/
def feedChunks (job : UploadJob) (chunks : List (List Nat)) : UploadJob :=
  chunks.foldl addData job

/-- Modelled from the spec: the registry `Get` used by the resume path (§4.3):
exact-match lookup on node, `uploadjob_id = multipart_key`, `hash` and
`crc32`; any mismatch yields `NotFound` (`none`), forcing a new job. -/
def getUploadJobRecord (st : ServerState) (nid upload_id h c : Nat) :
    Option UploadJobRecord :=
  st.uploadJobs.find? fun r =>
    r.node_id == nid && r.multipart_key == upload_id &&
      r.hash_hint == h && r.crc32_hint == c

/-- The errors an upload commit can fail with (§7 taxonomy, restricted to the
kinds the commit path raises).  `internal` covers broken-invariant states the
spec's flow never reaches. -/
inductive UploadError where
  | uploadCorrupt (msg : String)
  | conflict (msg : String)
  | doesNotExist
  | internal (msg : String)
deriving DecidableEq, Repr

/-- Modelled from the spec: the hint validation of `UploadJob.Commit` (§4.4),
in the spec's order; `none` means all hints check out, otherwise the
`UploadCorrupt` message. -/
def validateHints (job : UploadJob) (snap : Snapshot) : Option String :=
  if snap.inflated_size ≠ job.inflated_size_hint then some "inflated size mismatch"
  else if snap.deflated_size ≠ job.deflated_size_hint then some "deflated size mismatch"
  else if snap.content_hash ≠ job.hash_hint then some "hash mismatch"
  else if snap.crc32 ≠ job.crc32_hint then some "crc32 mismatch"
  else
    match job.magic_hash_hint with
    | some m => if snap.magic_hash ≠ m then some "magic hash mismatch" else none
    | none => none

/-- A failed commit reports its error and deletes the upload-job record
(§7: validation errors "delete `UploadJobRecord`"), leaving everything else
untouched. -/
def failCommit (st : ServerState) (job : UploadJob) (e : UploadError) :
    Except UploadError Nat × ServerState :=
  (Except.error e,
   match job.record with
   | some r => deleteRecord st r
   | none => st)

/-- The state after a successful streamed commit: blob row created, deflated
bytes durably in the blob store under the writer's key, node rebound to the
new content with its generation bumped, upload record released. -/
def commitSuccessState (st : ServerState) (job : UploadJob) (node' : Node)
    (blob : ContentBlob) (bytes : List Nat) : ServerState :=
  let st1 := updateNode st node'
  let st2 := { st1 with blobs := blob :: st1.blobs
                        blobStore := (blob.storage_key, bytes) :: st1.blobStore }
  match job.record with
  | some r => deleteRecord st2 r
  | none => st2

/-- Modelled from the spec: `UploadJob.Commit` (§4.4).  On the dedup path the
node is bound to the existing blob (`make_content_with_existing_blob`) after
the client hints are checked against the stored blob attributes (§8: every
successful PUT leaves the node's attributes equal to the hints); on the
streamed path the pipeline is finished, the hints validated in spec order,
then the conflict invariant checked: the node's `content_hash` at commit time
must equal the captured `prev_hash`, else
`ConflictError("The File changed while uploading.")`.  Success returns the
new generation, `previous generation + 1`, and deletes the record. -/
def commit (hm : HashModel) (st : ServerState) (job : UploadJob) :
    Except UploadError Nat × ServerState :=
  match findNode st job.node_id with
  | none => (Except.error UploadError.doesNotExist, st)
  | some node =>
    if job.dedup then
      if node.content_hash ≠ job.prev_hash then
        failCommit st job (UploadError.conflict "The File changed while uploading.")
      else
        match findBlob st job.hash_hint with
        | none => (Except.error (UploadError.internal "blob vanished"), st)
        | some b =>
          if b.crc32 ≠ job.crc32_hint then
            failCommit st job (UploadError.uploadCorrupt "crc32 mismatch")
          else if b.size ≠ job.inflated_size_hint then
            failCommit st job (UploadError.uploadCorrupt "inflated size mismatch")
          else if b.deflated_size ≠ job.deflated_size_hint then
            failCommit st job (UploadError.uploadCorrupt "deflated size mismatch")
          else
            let node' := { node with content_hash := b.hash, crc32 := b.crc32
                                     size := b.size, deflated_size := b.deflated_size
                                     storage_key := some b.storage_key
                                     generation := node.generation + 1 }
            let st1 := updateNode st node'
            (Except.ok node'.generation,
             match job.record with
             | some r => deleteRecord st1 r
             | none => st1)
    else
      match pipelineFinish hm job.received with
      | none => failCommit st job (UploadError.uploadCorrupt "bad deflate")
      | some snap =>
        match validateHints job snap with
        | some msg => failCommit st job (UploadError.uploadCorrupt msg)
        | none =>
          if node.content_hash ≠ job.prev_hash then
            failCommit st job (UploadError.conflict "The File changed while uploading.")
          else
            match job.storage_key with
            | none => (Except.error (UploadError.internal "writer never opened"), st)
            | some key =>
              let blob : ContentBlob :=
                { hash := snap.content_hash, magic_hash := job.magic_hash_hint
                  crc32 := snap.crc32, size := snap.inflated_size
                  deflated_size := snap.deflated_size, storage_key := key }
              let node' := { node with content_hash := snap.content_hash
                                       crc32 := snap.crc32, size := snap.inflated_size
                                       deflated_size := snap.deflated_size
                                       storage_key := some key
                                       generation := node.generation + 1 }
              (Except.ok node'.generation,
               commitSuccessState st job node' blob job.received)

/-- Modelled from the spec: `GET_CONTENT` (§4.5, §6): resolve the node, check
the requested hash is its current content, and stream the blob bytes from the
store at its storage key. -/
def getContent (st : ServerState) (nid h : Nat) : Option (List Nat) :=
  match findNode st nid with
  | none => none
  | some n =>
    if n.content_hash == h then
      match n.storage_key with
      | some key => storeLookup st.blobStore key
      | none => none
    else none

/-!
## ContentManager (§4.7)

`GetUserById` with a process-wide cache and single-flight coalescing,
modelled as a state machine whose interleaved operations are cache-hitting
or cache-missing requests and RPC completions.  `User` instances are
modelled as tokens minted from a counter, so "the identical instance" is
token equality.
-/

/-- The `ContentManager` state: the user cache, the in-flight single-flight
table (per user id, the callers waiting on the one outstanding RPC), the log
of RPC fetches issued, the per-caller delivered instances, and the
instance-token mint. -/
structure CMState where
  users : List (Nat × Nat)
  inflight : List (Nat × List Nat)
  rpcLog : List Nat
  delivered : List (Nat × Nat)
  next_token : Nat
deriving DecidableEq, Repr

/-- The empty `ContentManager`: nothing cached, nothing in flight. -/
def cmInit : CMState :=
  { users := [], inflight := [], rpcLog := [], delivered := [], next_token := 0 }

/-- Interleaved `ContentManager` events: a caller's `GetUserById(id)` reaching
the manager, and the completion of the (single) outstanding RPC for an id. -/
inductive CMOp where
  | request (id caller : Nat)
  | complete (id : Nat)
deriving DecidableEq, Repr

/-- Assoc-list lookup keyed on the first component. -/
def alist.lookup (l : List (Nat × α)) (k : Nat) : Option α :=
  (l.find? fun p => p.1 == k).map fun p => p.2

/-- Modelled from the spec: one `ContentManager` step (§4.7 single-flight).
A request that hits the cache is answered at once; one that finds an RPC
already in flight for its id joins the waiter list without issuing a second
RPC; the first miss issues the RPC.  An RPC completion mints the `User`
instance, caches it and delivers that same instance to every waiter. -/
def cmStep (s : CMState) (op : CMOp) : CMState :=
  match op with
  | CMOp.request id caller =>
    match alist.lookup s.users id with
    | some u => { s with delivered := (caller, u) :: s.delivered }
    | none =>
      match alist.lookup s.inflight id with
      | some ws =>
        { s with inflight := s.inflight.map fun p =>
            if p.1 == id then (p.1, caller :: ws) else p }
      | none =>
        { s with inflight := (id, [caller]) :: s.inflight
                 rpcLog := id :: s.rpcLog }
  | CMOp.complete id =>
    match alist.lookup s.inflight id with
    | none => s
    | some ws =>
      let u := s.next_token
      { users := (id, u) :: s.users
        inflight := s.inflight.filter fun p => p.1 != id
        rpcLog := s.rpcLog
        delivered := (ws.map fun c => (c, u)) ++ s.delivered
        next_token := s.next_token + 1 }

/-- Run a sequence of interleaved `ContentManager` events. -/
def cmRun (ops : List CMOp) (s : CMState) : CMState :=
  ops.foldl cmStep s

/-!
## Transfer controllers (§4.8): resource ordering

The PUT/GET controller preludes as ordered step lists over a controller
state whose `slot` is the `upload_job` / `message_producer` assignment.
Each emitted event is logged together with whether the slot was already
assigned at the moment of emission, which is exactly what the
`when_to_release` tests observe.
-/

/-- The controller-visible steps of a request prelude. -/
inductive CtrlStep where
  | buildJob (j : Nat)
  | assignSlot (j : Nat)
  | releaseLock
  | beginContent
deriving DecidableEq, Repr

/-- Controller state: the `upload_job` / `message_producer` slot and the event
log; each log entry carries the event and whether the slot was non-null when
it fired. -/
structure CtrlState where
  slot : Option Nat
  events : List (CtrlStep × Bool)
deriving DecidableEq, Repr

/-- One controller step: `assignSlot` fills the slot; every step appends
itself to the log along with the slot's occupancy at that moment. -/
def ctrlStep (s : CtrlState) (step : CtrlStep) : CtrlState :=
  match step with
  | CtrlStep.assignSlot j =>
    { slot := some j, events := s.events ++ [(CtrlStep.assignSlot j, s.slot.isSome)] }
  | step => { s with events := s.events ++ [(step, s.slot.isSome)] }

/-- Run a controller program from a state. -/
def ctrlRun (steps : List CtrlStep) (s : CtrlState) : CtrlState :=
  steps.foldl ctrlStep s

/-- Modelled from the spec: the `PutContentResponse._start` prelude (§4.8
"Assign before release"): construct the `UploadJob`, set the controller's
`upload_job` slot, only then signal `release`, then send `BEGIN_CONTENT`. -/
def putStartProgram (j : Nat) : List CtrlStep :=
  [CtrlStep.buildJob j, CtrlStep.assignSlot j, CtrlStep.releaseLock,
   CtrlStep.beginContent]

/-- Modelled from the spec: the `GetContentResponse` prelude (§4.5 "the
controller's `release` fires only after the producer has been attached"):
create the reader producer, attach it to the `message_producer` slot, then
release, then `begin_content` precedes any bytes. -/
def getStartProgram (j : Nat) : List CtrlStep :=
  [CtrlStep.buildJob j, CtrlStep.assignSlot j, CtrlStep.releaseLock,
   CtrlStep.beginContent]

/-- A log respects the resource-ordering contract when every `releaseLock`
event fired with the slot already assigned. -/
def releaseAfterAssign (events : List (CtrlStep × Bool)) : Bool :=
  events.all fun e => e.1 != CtrlStep.releaseLock || e.2

/-!
## Commit / record-deletion failure interplay (§7)

The implementation module is absent; the behaviour is pinned by the
repository test `TestUploadJob.test_commit_and_delete_fails`, which makes
the inner commit fail with `ValueError("boom")` and the record deletion
fail with `ValueError("delete boom")`, and asserts that the failure the
caller sees stringifies to `"delete boom"` and that `"delete boom"` is
logged as a warning.
-/

/-- Modelled from the spec (§4.4 `Commit`, §7 propagation) with the failure
interplay pinned by the repository's own test: the outer commit runs the
inner commit; on inner failure it deletes the upload record; if that deletion
itself fails, the deletion error is logged as a warning and it is the
deletion error that propagates to the caller.  Returns the surfaced result
and the warning log. -/
def commitWithCleanup (inner : Except String Nat)
    (deletion : Except String Unit) : Except String Nat × List String :=
  match inner with
  | Except.ok g => (Except.ok g, [])
  | Except.error e =>
    match deletion with
    | Except.ok _ => (Except.error e, [])
    | Except.error d => (Except.error d, [d])

/-!
## A concrete hash model for evaluating the definitions

The claims never depend on cryptographic properties, only on equality of
the pipeline outputs, so any computable instantiation exercises the
model.  `toyModel` treats the deflated stream as its own inflation and
uses simple arithmetic digests.
-/

/-- A concrete, fully computable `HashModel` used to evaluate the transfer
engine on explicit inputs. -/
def toyModel : HashModel :=
  { inflate := fun d => some d
    contentHash := fun p => p.foldl (fun a b => a + b) 1
    magicHash := fun p => p.foldl (fun a b => a + b) 2
    crcOf := fun p => p.foldl (fun a b => 2 * a + b) 0 }

/-!
## Helper lemmas
-/

/-- A successful node lookup pins the found node's id. -/
theorem findNode_id {st : ServerState} {nid : Nat} {node : Node}
    (h : findNode st nid = some node) : node.id = nid := by
  have := List.find?_some h
  simpa using this

/-- A successful blob lookup pins the found blob's hash. -/
theorem findBlob_hash {st : ServerState} {h : Nat} {b : ContentBlob}
    (hb : findBlob st h = some b) : b.hash = h := by
  have := List.find?_some hb
  simpa using this

/-- Updating a node that is present replaces it in every lookup for its id. -/
theorem find_update_of_found {l : List Node} {nid : Nat} {node n' : Node}
    (hf : l.find? (fun n => n.id == nid) = some node) (hid : n'.id = nid) :
    (l.map fun x => if x.id == n'.id then n' else x).find?
      (fun n => n.id == nid) = some n' := by
  induction l with
  | nil => simp at hf
  | cons a l ih =>
    by_cases ha : a.id = nid
    · have hcond : (a.id == n'.id) = true := by simp [hid, ha]
      have hmap : (a :: l).map (fun x => if x.id == n'.id then n' else x)
          = n' :: l.map (fun x => if x.id == n'.id then n' else x) := by
        simp only [List.map_cons, hcond, if_true]
      rw [hmap, List.find?_cons_of_pos _ (by simp [hid])]
    · have hcond : (a.id == n'.id) = false := by simp [hid, ha]
      have hmap : (a :: l).map (fun x => if x.id == n'.id then n' else x)
          = a :: l.map (fun x => if x.id == n'.id then n' else x) := by
        simp only [List.map_cons, hcond, Bool.false_eq_true, if_false]
      rw [List.find?_cons_of_neg _ (by simp [ha])] at hf
      rw [hmap, List.find?_cons_of_neg _ (by simp [ha])]
      exact ih hf

/-- `findNode` across `updateNode`, when the node id being looked up is the
updated node's id and some node was there before. -/
theorem findNode_updateNode {st : ServerState} {nid : Nat} {node n' : Node}
    (hf : findNode st nid = some node) (hid : n'.id = nid) :
    findNode (updateNode st n') nid = some n' :=
  find_update_of_found hf hid

/-- Deleting an upload-job record touches only the registry table. -/
theorem deleteRecord_nodes (st : ServerState) (r : UploadJobRecord) :
    (deleteRecord st r).nodes = st.nodes := rfl

/-- Deleting an upload-job record leaves the blob store untouched. -/
theorem deleteRecord_blobStore (st : ServerState) (r : UploadJobRecord) :
    (deleteRecord st r).blobStore = st.blobStore := rfl

/-- After `Delete`, the record's row is gone from the registry. -/
theorem deleteRecord_not_mem (st : ServerState) (r : UploadJobRecord) :
    r ∉ (deleteRecord st r).uploadJobs := by
  intro hmem
  have := List.of_mem_filter hmem
  simp at this

/-- Passing hint validation means every snapshot value equals its hint. -/
theorem validateHints_eq_none {job : UploadJob} {snap : Snapshot}
    (h : validateHints job snap = none) :
    snap.inflated_size = job.inflated_size_hint ∧
    snap.deflated_size = job.deflated_size_hint ∧
    snap.content_hash = job.hash_hint ∧
    snap.crc32 = job.crc32_hint ∧
    ∀ m, job.magic_hash_hint = some m → snap.magic_hash = m := by
  unfold validateHints at h
  split_ifs at h with h1 h2 h3 h4
  push_neg at h1 h2 h3 h4
  refine ⟨h1, h2, h3, h4, ?_⟩
  intro m hm
  rw [hm] at h
  by_contra hne
  simp [hne] at h

/-- A mismatch between any hint and the computed snapshot makes hint
validation fail with some message. -/
theorem validateHints_some_of_mismatch {job : UploadJob} {snap : Snapshot}
    (h : snap.content_hash ≠ job.hash_hint ∨ snap.crc32 ≠ job.crc32_hint ∨
         snap.inflated_size ≠ job.inflated_size_hint ∨
         snap.deflated_size ≠ job.deflated_size_hint ∨
         (∃ m, job.magic_hash_hint = some m ∧ snap.magic_hash ≠ m)) :
    ∃ msg, validateHints job snap = some msg := by
  cases hv : validateHints job snap with
  | some msg => exact ⟨msg, rfl⟩
  | none =>
    obtain ⟨e1, e2, e3, e4, e5⟩ := validateHints_eq_none hv
    rcases h with h | h | h | h | ⟨m, hm, hne⟩
    · exact absurd e3 h
    · exact absurd e4 h
    · exact absurd e1 h
    · exact absurd e2 h
    · exact absurd (e5 m hm) hne

/-- Feeding chunks to a non-dedup job appends their concatenation to the
received stream and changes nothing else. -/
theorem feedChunks_nondedup (job : UploadJob) (hd : job.dedup = false)
    (chunks : List (List Nat)) :
    feedChunks job chunks = { job with received := job.received ++ chunks.flatten } := by
  induction chunks generalizing job with
  | nil => simp [feedChunks]
  | cons c cs ih =>
    have hstep : addData job c = { job with received := job.received ++ c } := by
      simp [addData, hd]
    have hx : feedChunks job (c :: cs) = feedChunks (addData job c) cs := rfl
    rw [hx, hstep, ih _ (by simp [hd])]
    simp

/-- On the dedup path the client skips transmission: feeding chunks is a
no-op. -/
theorem feedChunks_dedup (job : UploadJob) (hd : job.dedup = true)
    (chunks : List (List Nat)) : feedChunks job chunks = job := by
  induction chunks with
  | nil => rfl
  | cons c cs ih =>
    have : feedChunks job (c :: cs) = feedChunks (addData job c) cs := rfl
    rw [this]
    simpa [addData, hd] using ih

/-- Inversion of a successful streamed (non-dedup) commit: the node was
found, the pipeline finished, every hint validated, the conflict invariant
held, a writer key existed, the returned generation is the node's previous
generation plus one, and the final state is the success state. -/
theorem commit_ok_streamed {hm : HashModel} {st : ServerState} {job : UploadJob}
    {g : Nat} {st' : ServerState}
    (hded : job.dedup = false)
    (hcommit : commit hm st job = (Except.ok g, st')) :
    ∃ node snap key,
      findNode st job.node_id = some node ∧
      pipelineFinish hm job.received = some snap ∧
      validateHints job snap = none ∧
      node.content_hash = job.prev_hash ∧
      job.storage_key = some key ∧
      g = node.generation + 1 ∧
      st' = commitSuccessState st job
        { node with content_hash := snap.content_hash, crc32 := snap.crc32
                    size := snap.inflated_size, deflated_size := snap.deflated_size
                    storage_key := some key, generation := node.generation + 1 }
        { hash := snap.content_hash, magic_hash := job.magic_hash_hint
          crc32 := snap.crc32, size := snap.inflated_size
          deflated_size := snap.deflated_size, storage_key := key }
        job.received := by
  unfold commit at hcommit
  split at hcommit
  · simp at hcommit
  · rename_i node hfind
    rw [hded] at hcommit
    simp only [Bool.false_eq_true, if_false] at hcommit
    split at hcommit
    · simp [failCommit] at hcommit
    · rename_i snap hpipe
      split at hcommit
      · simp [failCommit] at hcommit
      · rename_i heval
        split at hcommit
        · simp [failCommit] at hcommit
        · rename_i hconf
          split at hcommit
          · simp at hcommit
          · rename_i key hkey
            simp only [Prod.mk.injEq] at hcommit
            obtain ⟨h1, h2⟩ := hcommit
            refine ⟨node, snap, key, hfind, hpipe, heval, ?_, hkey, ?_, h2.symm⟩
            · push_neg at hconf
              exact hconf
            · exact (by injection h1 with h; exact h.symm)

/-- Inversion of a successful dedup commit: the node and the reused blob were
found, the conflict invariant held, the client's hints matched the stored
blob attributes, the returned generation is the node's previous generation
plus one, and the final state rebinds the node to the existing blob. -/
theorem commit_ok_dedup {hm : HashModel} {st : ServerState} {job : UploadJob}
    {g : Nat} {st' : ServerState}
    (hded : job.dedup = true)
    (hcommit : commit hm st job = (Except.ok g, st')) :
    ∃ node b,
      findNode st job.node_id = some node ∧
      findBlob st job.hash_hint = some b ∧
      node.content_hash = job.prev_hash ∧
      b.crc32 = job.crc32_hint ∧
      b.size = job.inflated_size_hint ∧
      b.deflated_size = job.deflated_size_hint ∧
      g = node.generation + 1 ∧
      st' = (let node' := { node with content_hash := b.hash, crc32 := b.crc32
                                      size := b.size, deflated_size := b.deflated_size
                                      storage_key := some b.storage_key
                                      generation := node.generation + 1 }
             match job.record with
             | some r => deleteRecord (updateNode st node') r
             | none => updateNode st node') := by
  unfold commit at hcommit
  split at hcommit
  · simp at hcommit
  · rename_i node hfind
    rw [hded] at hcommit
    simp only [if_true] at hcommit
    split at hcommit
    · simp [failCommit] at hcommit
    · rename_i hconf
      split at hcommit
      · simp at hcommit
      · rename_i b hblob
        split at hcommit
        · simp [failCommit] at hcommit
        · rename_i hcrc
          split at hcommit
          · simp [failCommit] at hcommit
          · rename_i hsize
            split at hcommit
            · simp [failCommit] at hcommit
            · rename_i hdsz
              simp only [Prod.mk.injEq] at hcommit
              obtain ⟨h1, h2⟩ := hcommit
              push_neg at hconf hcrc hsize hdsz
              refine ⟨node, b, hfind, hblob, hconf, hcrc, hsize, hdsz, ?_, h2.symm⟩
              exact (by injection h1 with h; exact h.symm)

/-- The node a successful commit leaves behind: its attributes equal the
hints and its generation is the returned one, the previous plus one.  Holds
on both the streamed and the dedup path. -/
theorem commit_ok_fields {hm : HashModel} {st : ServerState} {job : UploadJob}
    {g : Nat} {st' : ServerState} {node : Node}
    (hfind : findNode st job.node_id = some node)
    (hcommit : commit hm st job = (Except.ok g, st')) :
    g = node.generation + 1 ∧
    ∃ n', findNode st' job.node_id = some n' ∧
      n'.content_hash = job.hash_hint ∧
      n'.crc32 = job.crc32_hint ∧
      n'.size = job.inflated_size_hint ∧
      n'.deflated_size = job.deflated_size_hint ∧
      n'.generation = g := by
  have hid : node.id = job.node_id := findNode_id hfind
  cases hded : job.dedup with
  | false =>
    obtain ⟨node0, snap, key, hfind0, hpipe, heval, hconf, hkey, hg, hst'⟩ :=
      commit_ok_streamed hded hcommit
    have hnode0 : node0 = node := by rw [hfind0] at hfind; injection hfind
    rw [hnode0] at hg hst'
    obtain ⟨e1, e2, e3, e4, _⟩ := validateHints_eq_none heval
    refine ⟨hg, ?_⟩
    refine ⟨{ node with content_hash := snap.content_hash, crc32 := snap.crc32
                        size := snap.inflated_size, deflated_size := snap.deflated_size
                        storage_key := some key, generation := node.generation + 1 },
            ?_, e3, e4, e1, e2, hg.symm⟩
    rw [hst']
    unfold commitSuccessState
    cases hrec : job.record with
    | none => exact findNode_updateNode hfind hid
    | some r => exact findNode_updateNode hfind hid
  | true =>
    obtain ⟨node0, b, hfind0, hblob, hconf, hcrc, hsize, hdsz, hg, hst'⟩ :=
      commit_ok_dedup hded hcommit
    have hnode0 : node0 = node := by rw [hfind0] at hfind; injection hfind
    rw [hnode0] at hg hst'
    have hbh : b.hash = job.hash_hint := findBlob_hash hblob
    refine ⟨hg, ?_⟩
    refine ⟨{ node with content_hash := b.hash, crc32 := b.crc32
                        size := b.size, deflated_size := b.deflated_size
                        storage_key := some b.storage_key
                        generation := node.generation + 1 },
            ?_, hbh, hcrc, hsize, hdsz, hg.symm⟩
    rw [hst']
    cases hrec : job.record with
    | none => exact findNode_updateNode hfind hid
    | some r => exact findNode_updateNode hfind hid

/-!
## Claim theorems
-/

/-- C1: for every successful PUT_CONTENT of a file, the resulting node's
`content_hash` equals the hash hint, its `crc32`, `size` and `deflated_size`
equal their hints, and the generation returned by the commit equals the
node's previous generation plus one. -/
theorem putcontent_success_matches_hints_and_bumps_generation
    {hm : HashModel} {st : ServerState} {job : UploadJob}
    {g : Nat} {st' : ServerState} {node : Node}
    (hfind : findNode st job.node_id = some node)
    (hcommit : commit hm st job = (Except.ok g, st')) :
    g = node.generation + 1 ∧
    ∃ n', findNode st' job.node_id = some n' ∧
      n'.content_hash = job.hash_hint ∧
      n'.crc32 = job.crc32_hint ∧
      n'.size = job.inflated_size_hint ∧
      n'.deflated_size = job.deflated_size_hint ∧
      n'.generation = g :=
  commit_ok_fields hfind hcommit

/-- C2: for every PUT whose streamed bytes disagree with any hint (content
hash, crc32, inflated size, deflated size, or a supplied magic hash), the
request fails with UPLOAD_CORRUPT, the node's content and the blob store are
not updated, and the upload-job record is deleted. -/
theorem putcontent_hint_mismatch_upload_corrupt
    {hm : HashModel} {st : ServerState} {job : UploadJob}
    {node : Node} {r : UploadJobRecord} {snap : Snapshot}
    (hded : job.dedup = false)
    (hfind : findNode st job.node_id = some node)
    (hrec : job.record = some r)
    (hpipe : pipelineFinish hm job.received = some snap)
    (hmismatch : snap.content_hash ≠ job.hash_hint ∨ snap.crc32 ≠ job.crc32_hint ∨
      snap.inflated_size ≠ job.inflated_size_hint ∨
      snap.deflated_size ≠ job.deflated_size_hint ∨
      (∃ m, job.magic_hash_hint = some m ∧ snap.magic_hash ≠ m)) :
    ∃ msg, commit hm st job =
        (Except.error (UploadError.uploadCorrupt msg), deleteRecord st r) ∧
      (commit hm st job).2.nodes = st.nodes ∧
      (commit hm st job).2.blobStore = st.blobStore ∧
      r ∉ (commit hm st job).2.uploadJobs := by
  obtain ⟨msg, hval⟩ := validateHints_some_of_mismatch hmismatch
  have hc : commit hm st job =
      (Except.error (UploadError.uploadCorrupt msg), deleteRecord st r) := by
    simp [commit, hfind, hded, hpipe, hval, hrec, failCommit]
  refine ⟨msg, hc, ?_, ?_, ?_⟩
  · rw [hc]; rfl
  · rw [hc]; rfl
  · rw [hc]
    exact deleteRecord_not_mem st r


/-- C3: if at commit time the node's `content_hash` no longer equals the
`prev_hash` captured when the upload began (all hints otherwise valid), the
commit fails with `ConflictError("The File changed while uploading.")`, the
record is deleted, and the node's content is unchanged. -/
theorem commit_conflict_on_changed_file
    {hm : HashModel} {st : ServerState} {job : UploadJob}
    {node : Node} {r : UploadJobRecord} {snap : Snapshot}
    (hded : job.dedup = false)
    (hfind : findNode st job.node_id = some node)
    (hrec : job.record = some r)
    (hpipe : pipelineFinish hm job.received = some snap)
    (hval : validateHints job snap = none)
    (hconf : node.content_hash ≠ job.prev_hash) :
    commit hm st job =
      (Except.error (UploadError.conflict "The File changed while uploading."),
       deleteRecord st r) ∧
    (commit hm st job).2.nodes = st.nodes ∧
    r ∉ (commit hm st job).2.uploadJobs := by
  have hc : commit hm st job =
      (Except.error (UploadError.conflict "The File changed while uploading."),
       deleteRecord st r) := by
    simp [commit, hfind, hded, hpipe, hval, hconf, hrec, failCommit]
  refine ⟨hc, ?_, ?_⟩
  · rw [hc]; rfl
  · rw [hc]
    exact deleteRecord_not_mem st r

/-- Reading back the content just committed: after `commitSuccessState` the
node resolves to the updated node, whose storage key addresses the freshly
written bytes at the head of the blob store. -/
theorem getContent_commitSuccess {st : ServerState} {job : UploadJob}
    {node n' : Node} {blob : ContentBlob} {bytes : List Nat} {h : Nat}
    (hfind : findNode st job.node_id = some node)
    (hid : n'.id = job.node_id)
    (hsk : n'.storage_key = some blob.storage_key)
    (hch : n'.content_hash = h) :
    getContent (commitSuccessState st job n' blob bytes) job.node_id h = some bytes := by
  have h1 : findNode (commitSuccessState st job n' blob bytes) job.node_id = some n' := by
    unfold commitSuccessState
    cases job.record with
    | none => exact findNode_updateNode hfind hid
    | some r => exact findNode_updateNode hfind hid
  have h2 : (commitSuccessState st job n' blob bytes).blobStore
      = (blob.storage_key, bytes) :: st.blobStore := by
    unfold commitSuccessState
    cases job.record with
    | none => rfl
    | some r => rfl
  simp only [getContent, h1]
  rw [if_pos (by simp [hch]), hsk, h2]
  simp [storeLookup]

/-- C4: a PUT that streams its deflated bytes (in any chunking) and commits
successfully leaves the blob store such that a GET_CONTENT of that node with
that hash returns exactly the concatenation of the uploaded chunks — the
byte-identical deflated stream, for single-chunk and multi-chunk uploads
alike. -/
theorem put_then_get_roundtrip
    {hm : HashModel} {st : ServerState}
    {uid nid prev h c isz dsz k g : Nat} {magic : Option Nat}
    {chunks : List (List Nat)} {st' : ServerState}
    (hnoded : dedupOk st (freshJob uid nid prev h c isz dsz magic) = false)
    (hcommit :
      commit hm st (feedChunks (connect st (freshJob uid nid prev h c isz dsz magic) k) chunks)
        = (Except.ok g, st')) :
    getContent st' nid h = some chunks.flatten := by
  have hconn : connect st (freshJob uid nid prev h c isz dsz magic) k =
      { freshJob uid nid prev h c isz dsz magic with
          dedup := false, storage_key := some k, offset := 0 } := by
    unfold connect
    rw [hnoded]
    rfl
  rw [hconn, feedChunks_nondedup _ rfl chunks] at hcommit
  obtain ⟨node, snap, key, hfind, hpipe, heval, hconf, hkey, hg, hst'⟩ :=
    commit_ok_streamed rfl hcommit
  have hkey' : some k = some key := hkey
  have hkk : key = k := by injection hkey' with hh; exact hh.symm
  subst hkk
  have hfind2 : findNode st nid = some node := hfind
  have hid : node.id = nid := findNode_id hfind2
  obtain ⟨e1, e2, e3, e4, _⟩ := validateHints_eq_none heval
  have e3' : snap.content_hash = h := e3
  rw [hst']
  exact getContent_commitSuccess hfind hid rfl e3'

/-- C5: a user who already owns a node with the hinted content hash gets the
dedup path on a later PUT hinting that hash: `Connect` answers with
`offset = deflated_size` (so the client skips transmission), no writer is
opened, no bytes reach the job, the blob store receives no bytes, and a
successful commit still returns the node's previous generation plus one. -/
theorem same_user_dedup_skips_upload
    {hm : HashModel} {st : ServerState}
    {uid nid prev H c isz dsz k : Nat} {magic : Option Nat} {node : Node}
    (howns : userOwnsHash st uid H = true)
    (hblob : (findBlob st H).isSome = true)
    (hfind : findNode st nid = some node) :
    (connect st (freshJob uid nid prev H c isz dsz magic) k).dedup = true ∧
    (connect st (freshJob uid nid prev H c isz dsz magic) k).offset = dsz ∧
    (connect st (freshJob uid nid prev H c isz dsz magic) k).storage_key = none ∧
    (∀ chunks, feedChunks (connect st (freshJob uid nid prev H c isz dsz magic) k) chunks
        = connect st (freshJob uid nid prev H c isz dsz magic) k) ∧
    (∀ g st', commit hm st (connect st (freshJob uid nid prev H c isz dsz magic) k)
        = (Except.ok g, st') →
      g = node.generation + 1 ∧ st'.blobStore = st.blobStore) := by
  obtain ⟨b, hb⟩ := Option.isSome_iff_exists.mp hblob
  have hded : dedupOk st (freshJob uid nid prev H c isz dsz magic) = true := by
    simp [dedupOk, freshJob, hb, howns]
  have hconn : connect st (freshJob uid nid prev H c isz dsz magic) k =
      { freshJob uid nid prev H c isz dsz magic with
          dedup := true, storage_key := none, offset := dsz } := by
    unfold connect
    rw [hded]
    rfl
  refine ⟨by rw [hconn], by rw [hconn], by rw [hconn], ?_, ?_⟩
  · intro chunks
    rw [hconn]
    exact feedChunks_dedup _ rfl chunks
  · intro g st' hc
    rw [hconn] at hc
    obtain ⟨node0, b0, hfind0, hblob0, hconf, hcrc, hsize, hdsz, hg, hst'⟩ :=
      commit_ok_dedup rfl hc
    have hfind0' : findNode st nid = some node0 := hfind0
    rw [hfind] at hfind0'
    have hnn : node = node0 := by injection hfind0'
    constructor
    · rw [hg, hnn]
    · rw [hst']
      rfl

/-- C6: for a user owning no node with the hinted hash, the dedup shortcut is
taken exactly when the supplied `magic_hash_hint` equals the stored blob's
magic hash; with no or a wrong magic hint the connect is a full upload from
offset 0 with a writer open, and a blob whose `magic_hash` is unset is never
deduplicated for such a user. -/
theorem cross_user_dedup_requires_magic
    {st : ServerState} {uid nid prev H c isz dsz k : Nat}
    {magic : Option Nat} {b : ContentBlob}
    (hnoown : userOwnsHash st uid H = false)
    (hblob : findBlob st H = some b) :
    (dedupOk st (freshJob uid nid prev H c isz dsz magic) = true ↔
      ∃ m, magic = some m ∧ b.magic_hash = some m) ∧
    ((∀ m bm, magic = some m → b.magic_hash = some bm → m ≠ bm) →
      (connect st (freshJob uid nid prev H c isz dsz magic) k).dedup = false ∧
      (connect st (freshJob uid nid prev H c isz dsz magic) k).offset = 0 ∧
      (connect st (freshJob uid nid prev H c isz dsz magic) k).storage_key = some k) ∧
    (b.magic_hash = none → dedupOk st (freshJob uid nid prev H c isz dsz magic) = false) := by
  have hd : dedupOk st (freshJob uid nid prev H c isz dsz magic) =
      (match magic, b.magic_hash with
       | some m, some bm => m == bm
       | _, _ => false) := by
    simp [dedupOk, freshJob, hblob, hnoown]
  refine ⟨?_, ?_, ?_⟩
  · rw [hd]
    cases hmg : magic with
    | none => simp
    | some m =>
      cases hbm : b.magic_hash with
      | none => simp
      | some bm =>
        simp only [hbm]
        constructor
        · intro hmb
          have hmb' : m = bm := by simpa using hmb
          exact ⟨m, rfl, by rw [hmb']⟩
        · rintro ⟨m1, hm1, hbm1⟩
          have : m1 = m := by injection hm1.symm
          subst this
          have : bm = m1 := by injection hbm1
          simp [this]
  · intro hmw
    have hdf : dedupOk st (freshJob uid nid prev H c isz dsz magic) = false := by
      rw [hd]
      cases hmg : magic with
      | none => rfl
      | some m =>
        cases hbm : b.magic_hash with
        | none => rfl
        | some bm =>
          have hne := hmw m bm hmg hbm
          simp [hne]
    have hconn : connect st (freshJob uid nid prev H c isz dsz magic) k =
        { freshJob uid nid prev H c isz dsz magic with
            dedup := false, storage_key := some k, offset := 0 } := by
      unfold connect
      rw [hdf]
      rfl
    exact ⟨by rw [hconn], by rw [hconn], by rw [hconn]⟩
  · intro hbm
    rw [hd, hbm]
    cases magic <;> rfl

/-- C7: presenting the previously returned `upload_id` (the record's
`multipart_key`) with identical hash and crc32 hints finds the record (whose
hints therefore coincide with the request's), `Connect` answers with
`offset = uploaded_bytes`, and completing the upload from there with a
successful commit leaves the node's content matching all the hints. -/
theorem resume_offset_and_completion
    {hm : HashModel} {st : ServerState} {uid prev dsz nid upload_id h c k : Nat}
    {magic : Option Nat} {r : UploadJobRecord}
    (hget : getUploadJobRecord st nid upload_id h c = some r)
    (hnoded : dedupOk st (resumedJob uid prev dsz magic r) = false) :
    r.node_id = nid ∧ r.multipart_key = upload_id ∧
    r.hash_hint = h ∧ r.crc32_hint = c ∧
    (connect st (resumedJob uid prev dsz magic r) k).offset = r.uploaded_bytes ∧
    ∀ chunks g st' node,
      findNode st nid = some node →
      commit hm st (feedChunks (connect st (resumedJob uid prev dsz magic r) k) chunks)
        = (Except.ok g, st') →
      ∃ n', findNode st' nid = some n' ∧
        n'.content_hash = h ∧ n'.crc32 = c ∧
        n'.size = r.inflated_size_hint ∧ n'.deflated_size = dsz ∧
        g = node.generation + 1 := by
  have hget' : st.uploadJobs.find? (fun x => x.node_id == nid &&
      x.multipart_key == upload_id && x.hash_hint == h && x.crc32_hint == c)
      = some r := hget
  have hp := List.find?_some hget'
  simp only [Bool.and_eq_true, beq_iff_eq] at hp
  obtain ⟨⟨⟨h1, h2⟩, h3⟩, h4⟩ := hp
  have hconn : connect st (resumedJob uid prev dsz magic r) k =
      { resumedJob uid prev dsz magic r with
          dedup := false, storage_key := some k, offset := r.uploaded_bytes } := by
    unfold connect
    rw [hnoded]
    rfl
  refine ⟨h1, h2, h3, h4, by rw [hconn], ?_⟩
  intro chunks g st' node hfind hcommit
  rw [hconn, feedChunks_nondedup _ rfl chunks] at hcommit
  have hfindr : findNode st r.node_id = some node := by rw [h1]; exact hfind
  obtain ⟨hg, n', hfind2, f1, f2, f3, f4, f5⟩ := commit_ok_fields hfindr hcommit
  have hfind2' : findNode st' r.node_id = some n' := hfind2
  rw [h1] at hfind2'
  have f1' : n'.content_hash = r.hash_hint := f1
  rw [h3] at f1'
  have f2' : n'.crc32 = r.crc32_hint := f2
  rw [h4] at f2'
  exact ⟨n', hfind2', f1', f2', f3, f4, hg⟩

/-- C8: two concurrent `GetUserById` calls for the same id that both miss the
cache are coalesced single-flight: exactly one RPC fetch is issued, both
callers are delivered the identical `User` instance, and that instance is
the one left in the cache. -/
theorem get_user_by_id_single_flight (id c1 c2 : Nat) :
    ∃ u,
      (cmRun [CMOp.request id c1, CMOp.request id c2, CMOp.complete id] cmInit).rpcLog
        = [id] ∧
      (c1, u) ∈ (cmRun [CMOp.request id c1, CMOp.request id c2,
        CMOp.complete id] cmInit).delivered ∧
      (c2, u) ∈ (cmRun [CMOp.request id c1, CMOp.request id c2,
        CMOp.complete id] cmInit).delivered ∧
      alist.lookup (cmRun [CMOp.request id c1, CMOp.request id c2,
        CMOp.complete id] cmInit).users id = some u := by
  refine ⟨0, ?_, ?_, ?_, ?_⟩ <;>
    simp [cmRun, cmStep, cmInit, alist.lookup]

/-- C9: neither the PUT nor the GET controller emits its `release` signal
before the upload job (respectively the download producer) has been assigned
to the controller slot: at every `releaseLock` event in the prelude traces
the slot is already non-null. -/
theorem release_after_assign_contract (j : Nat) :
    releaseAfterAssign
      (ctrlRun (putStartProgram j) { slot := none, events := [] }).events = true ∧
    releaseAfterAssign
      (ctrlRun (getStartProgram j) { slot := none, events := [] }).events = true :=
  ⟨rfl, rfl⟩

/-- C10 counterexample: when the inner commit fails with error "boom" and the
record deletion fails with "delete boom", the surfaced error is NOT the
original commit error — refuting the claim that the original error is the
one surfaced — while the deletion error is logged. -/
theorem commit_delete_failure_original_not_surfaced_cex :
    (commitWithCleanup (Except.error "boom") (Except.error "delete boom")).1 ≠
      (Except.error "boom" : Except String Nat) ∧
    (commitWithCleanup (Except.error "boom") (Except.error "delete boom")).2
      = ["delete boom"] := by
  constructor
  · intro hcontra
    have h1 : (commitWithCleanup (Except.error "boom")
        (Except.error "delete boom")).1 = Except.error "delete boom" := rfl
    rw [h1] at hcontra
    have h2 : ("delete boom" : String) = "boom" := by injection hcontra
    simp at h2
  · rfl

/-- C10 (amended): when an upload's commit fails and the subsequent record
deletion also fails, the deletion error is logged as a warning and it is the
deletion error — not the original commit error — that is surfaced to the
caller; when the deletion succeeds, the original commit error is surfaced
with nothing logged. -/
theorem commit_delete_failure_logged_and_surfaced (e d : String) :
    commitWithCleanup (Except.error e) (Except.error d) = (Except.error d, [d]) ∧
    commitWithCleanup (Except.error e) (Except.ok ()) = (Except.error e, []) :=
  ⟨rfl, rfl⟩

/-!
## Concrete witnesses

Small explicit server states and jobs on which the claim theorems are
instantiated and the definitions evaluated.
-/

/-- A file node without content yet (content hash 0 = EMPTY), generation 6. -/
def wNode : Node :=
  { id := 2, owner_id := 7, volume_id := 1, content_hash := 0, crc32 := 0
    size := 0, deflated_size := 0, storage_key := none, generation := 6
    kind := NodeKind.file }

/-- A one-node server state with empty blob store and registry. -/
def wState : ServerState :=
  { nodes := [wNode], blobs := [], blobStore := [], uploadJobs := [] }

/-- An upload job whose hints agree with `toyModel` over the bytes `[1,2,3]`:
content hash 7, crc32 11, inflated and deflated size 3. -/
def wJob : UploadJob :=
  { user_id := 7, node_id := 2, prev_hash := 0, hash_hint := 7
    crc32_hint := 11, inflated_size_hint := 3, deflated_size_hint := 3
    magic_hash_hint := none, record := none, dedup := false
    storage_key := some 50, received := [1, 2, 3], offset := 0 }

/-- The `toyModel` pipeline snapshot of the stream `[1,2,3]`. -/
def wSnap : Snapshot :=
  { content_hash := 7, magic_hash := 8, crc32 := 11
    inflated_size := 3, deflated_size := 3 }

/-- Witness for the successful-PUT claim: the concrete commit succeeds with
generation 7 = 6 + 1 and the node's attributes equal the hints. -/
theorem putcontent_success_witness :
    findNode wState wJob.node_id = some wNode ∧
    commit toyModel wState wJob = (Except.ok 7, (commit toyModel wState wJob).2) ∧
    (7 = wNode.generation + 1 ∧
     ∃ n', findNode (commit toyModel wState wJob).2 wJob.node_id = some n' ∧
       n'.content_hash = wJob.hash_hint ∧
       n'.crc32 = wJob.crc32_hint ∧
       n'.size = wJob.inflated_size_hint ∧
       n'.deflated_size = wJob.deflated_size_hint ∧
       n'.generation = 7) :=
  ⟨rfl, rfl,
   @putcontent_success_matches_hints_and_bumps_generation toyModel wState wJob 7
     ((commit toyModel wState wJob).2) wNode rfl rfl⟩

/-- A registry record for the corrupt-upload witness. -/
def wRec : UploadJobRecord :=
  { uploadjob_id := 31, multipart_key := 77, volume_id := 1, node_id := 2
    hash_hint := 999, crc32_hint := 11, inflated_size_hint := 3
    previous_hash := 0, uploaded := [], chunk_count := 0 }

/-- State holding the corrupt-upload record. -/
def wStateR : ServerState :=
  { nodes := [wNode], blobs := [], blobStore := [], uploadJobs := [wRec] }

/-- An upload job whose content-hash hint 999 disagrees with the computed
hash 7 of its streamed bytes. -/
def wJobBad : UploadJob :=
  { user_id := 7, node_id := 2, prev_hash := 0, hash_hint := 999
    crc32_hint := 11, inflated_size_hint := 3, deflated_size_hint := 3
    magic_hash_hint := none, record := some wRec, dedup := false
    storage_key := some 50, received := [1, 2, 3], offset := 0 }

/-- Witness for the hint-mismatch claim: the concrete corrupt upload fails
with UPLOAD_CORRUPT, state untouched, record deleted. -/
theorem putcontent_corrupt_witness :
    wJobBad.dedup = false ∧
    findNode wStateR wJobBad.node_id = some wNode ∧
    wJobBad.record = some wRec ∧
    pipelineFinish toyModel wJobBad.received = some wSnap ∧
    wSnap.content_hash ≠ wJobBad.hash_hint ∧
    (∃ msg, commit toyModel wStateR wJobBad =
        (Except.error (UploadError.uploadCorrupt msg), deleteRecord wStateR wRec) ∧
      (commit toyModel wStateR wJobBad).2.nodes = wStateR.nodes ∧
      (commit toyModel wStateR wJobBad).2.blobStore = wStateR.blobStore ∧
      wRec ∉ (commit toyModel wStateR wJobBad).2.uploadJobs) :=
  ⟨rfl, rfl, rfl, rfl, by decide,
   @putcontent_hint_mismatch_upload_corrupt toyModel wStateR wJobBad wNode wRec wSnap
     rfl rfl rfl rfl (Or.inl (by decide))⟩

/-- A registry record for the conflict witness. -/
def wRecC : UploadJobRecord :=
  { uploadjob_id := 32, multipart_key := 78, volume_id := 1, node_id := 2
    hash_hint := 7, crc32_hint := 11, inflated_size_hint := 3
    previous_hash := 5, uploaded := [], chunk_count := 0 }

/-- State holding the conflict record. -/
def wStateC : ServerState :=
  { nodes := [wNode], blobs := [], blobStore := [], uploadJobs := [wRecC] }

/-- An upload job with valid hints but a stale `prev_hash` 5, while the node
currently holds content hash 0. -/
def wJobC : UploadJob :=
  { user_id := 7, node_id := 2, prev_hash := 5, hash_hint := 7
    crc32_hint := 11, inflated_size_hint := 3, deflated_size_hint := 3
    magic_hash_hint := none, record := some wRecC, dedup := false
    storage_key := some 50, received := [1, 2, 3], offset := 0 }

/-- Witness for the conflict claim: the concrete stale-previous-hash commit
fails with the conflict error and deletes the record. -/
theorem commit_conflict_witness :
    wJobC.dedup = false ∧
    findNode wStateC wJobC.node_id = some wNode ∧
    wJobC.record = some wRecC ∧
    pipelineFinish toyModel wJobC.received = some wSnap ∧
    validateHints wJobC wSnap = none ∧
    wNode.content_hash ≠ wJobC.prev_hash ∧
    (commit toyModel wStateC wJobC =
       (Except.error (UploadError.conflict "The File changed while uploading."),
        deleteRecord wStateC wRecC) ∧
     (commit toyModel wStateC wJobC).2.nodes = wStateC.nodes ∧
     wRecC ∉ (commit toyModel wStateC wJobC).2.uploadJobs) :=
  ⟨rfl, rfl, rfl, rfl, rfl, by decide,
   @commit_conflict_on_changed_file toyModel wStateC wJobC wNode wRecC wSnap
     rfl rfl rfl rfl rfl (by decide)⟩

/-- Witness for the round-trip claim: a two-chunk upload of `[1,2]` then
`[3]` commits and a GET returns the concatenated stream `[1,2,3]`. -/
theorem put_then_get_roundtrip_witness :
    dedupOk wState (freshJob 7 2 0 7 11 3 3 none) = false ∧
    commit toyModel wState
        (feedChunks (connect wState (freshJob 7 2 0 7 11 3 3 none) 50) [[1, 2], [3]])
      = (Except.ok 7,
         (commit toyModel wState
           (feedChunks (connect wState (freshJob 7 2 0 7 11 3 3 none) 50)
             [[1, 2], [3]])).2) ∧
    getContent
        (commit toyModel wState
          (feedChunks (connect wState (freshJob 7 2 0 7 11 3 3 none) 50)
            [[1, 2], [3]])).2 2 7
      = some [[1, 2], [3]].flatten :=
  ⟨rfl, rfl,
   @put_then_get_roundtrip toyModel wState 7 2 0 7 11 3 3 50 7 none [[1, 2], [3]]
     ((commit toyModel wState
       (feedChunks (connect wState (freshJob 7 2 0 7 11 3 3 none) 50)
         [[1, 2], [3]])).2) rfl rfl⟩

/-- A node of the same user already pointing at content hash 99. -/
def wOwned : Node :=
  { id := 1, owner_id := 7, volume_id := 1, content_hash := 99, crc32 := 5
    size := 3, deflated_size := 3, storage_key := some 10, generation := 4
    kind := NodeKind.file }

/-- The stored blob for hash 99 (no magic hash recorded). -/
def wBlob : ContentBlob :=
  { hash := 99, magic_hash := none, crc32 := 5, size := 3
    deflated_size := 3, storage_key := 10 }

/-- State in which user 7 owns a node with hash 99 and the blob exists. -/
def wStateD : ServerState :=
  { nodes := [wOwned, wNode], blobs := [wBlob]
    blobStore := [(10, [1, 2, 3])], uploadJobs := [] }

/-- Witness for the same-user dedup claim on the concrete state: offset is
the deflated size 3, no writer, no bytes, generation 6 + 1 on commit. -/
theorem same_user_dedup_witness :
    userOwnsHash wStateD 7 99 = true ∧
    (findBlob wStateD 99).isSome = true ∧
    findNode wStateD 2 = some wNode ∧
    ((connect wStateD (freshJob 7 2 0 99 5 3 3 none) 50).dedup = true ∧
     (connect wStateD (freshJob 7 2 0 99 5 3 3 none) 50).offset = 3 ∧
     (connect wStateD (freshJob 7 2 0 99 5 3 3 none) 50).storage_key = none ∧
     (∀ chunks, feedChunks (connect wStateD (freshJob 7 2 0 99 5 3 3 none) 50) chunks
        = connect wStateD (freshJob 7 2 0 99 5 3 3 none) 50) ∧
     (∀ g st', commit toyModel wStateD (connect wStateD (freshJob 7 2 0 99 5 3 3 none) 50)
        = (Except.ok g, st') →
       g = wNode.generation + 1 ∧ st'.blobStore = wStateD.blobStore)) :=
  ⟨rfl, rfl, rfl,
   @same_user_dedup_skips_upload toyModel wStateD 7 2 0 99 5 3 3 50 none wNode
     rfl rfl rfl⟩

/-- The stored blob for hash 99 carrying magic hash 42. -/
def wBlobM : ContentBlob :=
  { hash := 99, magic_hash := some 42, crc32 := 5, size := 3
    deflated_size := 3, storage_key := 10 }

/-- State in which user 7 owns no node with hash 99 but the blob exists. -/
def wStateX : ServerState :=
  { nodes := [wNode], blobs := [wBlobM]
    blobStore := [(10, [1, 2, 3])], uploadJobs := [] }

/-- Witness for the cross-user dedup claim on the concrete state with no
magic hint supplied: dedup is refused and the upload starts at offset 0. -/
theorem cross_user_dedup_witness :
    userOwnsHash wStateX 7 99 = false ∧
    findBlob wStateX 99 = some wBlobM ∧
    ((dedupOk wStateX (freshJob 7 2 0 99 5 3 3 none) = true ↔
        ∃ m, (none : Option Nat) = some m ∧ wBlobM.magic_hash = some m) ∧
     ((∀ m bm, (none : Option Nat) = some m → wBlobM.magic_hash = some bm → m ≠ bm) →
        (connect wStateX (freshJob 7 2 0 99 5 3 3 none) 50).dedup = false ∧
        (connect wStateX (freshJob 7 2 0 99 5 3 3 none) 50).offset = 0 ∧
        (connect wStateX (freshJob 7 2 0 99 5 3 3 none) 50).storage_key = some 50) ∧
     (wBlobM.magic_hash = none →
        dedupOk wStateX (freshJob 7 2 0 99 5 3 3 none) = false)) :=
  ⟨rfl, rfl,
   @cross_user_dedup_requires_magic wStateX 7 2 0 99 5 3 3 50 none wBlobM rfl rfl⟩

/-- The registry record of an interrupted resumable upload: bytes `[1,2]`
already committed. -/
def wRecR : UploadJobRecord :=
  { uploadjob_id := 33, multipart_key := 77, volume_id := 1, node_id := 2
    hash_hint := 7, crc32_hint := 11, inflated_size_hint := 3
    previous_hash := 0, uploaded := [1, 2], chunk_count := 1 }

/-- State holding the interrupted upload's record. -/
def wStateRes : ServerState :=
  { nodes := [wNode], blobs := [], blobStore := [], uploadJobs := [wRecR] }

/-- Witness for the resume claim: looking the record up by its multipart key
and the identical hints succeeds, and the resumed connect offset is 2, the
record's `uploaded_bytes`. -/
theorem resume_offset_witness :
    getUploadJobRecord wStateRes 2 77 7 11 = some wRecR ∧
    dedupOk wStateRes (resumedJob 7 0 3 none wRecR) = false ∧
    (wRecR.node_id = 2 ∧ wRecR.multipart_key = 77 ∧
     wRecR.hash_hint = 7 ∧ wRecR.crc32_hint = 11 ∧
     (connect wStateRes (resumedJob 7 0 3 none wRecR) 50).offset
        = wRecR.uploaded_bytes ∧
     ∀ chunks g st' node,
       findNode wStateRes 2 = some node →
       commit toyModel wStateRes
           (feedChunks (connect wStateRes (resumedJob 7 0 3 none wRecR) 50) chunks)
         = (Except.ok g, st') →
       ∃ n', findNode st' 2 = some n' ∧
         n'.content_hash = 7 ∧ n'.crc32 = 11 ∧
         n'.size = wRecR.inflated_size_hint ∧ n'.deflated_size = 3 ∧
         g = node.generation + 1) :=
  ⟨rfl, rfl,
   @resume_offset_and_completion toyModel wStateRes 7 0 3 2 77 7 11 50 none wRecR
     rfl rfl⟩

end Magicicada
